import Mathlib

/-!
Shallow embedding of the react-native-fundamentals repository:
  - `context/ThemeContext.tsx` (theme mode persistence and propagation),
  - `context/ToastContext.tsx` (toast show/hide lifecycle with a cancellable
    auto-dismiss timer),
  - `cli.js` (the `add` / `list` / `help` command-line tool that copies
    static component files into a consuming project).

React state (`useState`, `useRef`) is modelled by explicit state records;
`setTimeout` / `clearTimeout` are modelled by an explicit set of pending timer
identifiers carried in the state; `AsyncStorage` is modelled by an association
list from keys to stored strings; the file system seen by the CLI is modelled
by an association list from paths to file contents, with `path.resolve`
rendered as string concatenation onto the abstract roots `PKG/` (the installed
package directory, `__dirname`) and `CWD/` (the consuming project,
`process.cwd()`).
-/

/-! ## Theme context (`context/ThemeContext.tsx`) -/

/-- ThemeMode from ThemeContext.tsx: `type ThemeMode = "light" | "dark" | "system"`. -/
inductive ThemeMode
  | light
  | dark
  | system
deriving DecidableEq, Repr

/-- Result of `useColorScheme()` from react-native: `"light" | "dark" | null`. -/
inductive ColorScheme
  | light
  | dark
  | unavailable
deriving DecidableEq, Repr

/-- Modelled from the spec: `themes/blueTheme.ts` is not under `src/`; the spec
and the ThemeContext import name two distinct palette objects `blueLight` and
`blueDark`, modelled here as the two distinct constructors of this type. -/
inductive ThemeObject
  | blueLight
  | blueDark
deriving DecidableEq, Repr

/-- The string written to / read from AsyncStorage for a theme mode
(ThemeMode values are persisted verbatim as their literal strings). -/
def ThemeMode.toStorageString : ThemeMode → String
  | .light => "light"
  | .dark => "dark"
  | .system => "system"

/-- AsyncStorage modelled as an association list from keys to stored strings. -/
abbrev Storage := List (String × String)

/-- `AsyncStorage.setItem key value`: the most recent write shadows older ones. -/
def setItem (key value : String) (st : Storage) : Storage :=
  (key, value) :: st

/-- `AsyncStorage.getItem key`: `null` (here `none`) when the key is absent. -/
def getItem (key : String) (st : Storage) : Option String :=
  st.lookup key

/-- ThemeContext.tsx line 104: `const THEME_MODE_KEY = "themeMode";`. -/
def THEME_MODE_KEY : String := "themeMode"

/-- Effect of the save `useEffect` in ThemeProvider: whenever `themeMode`
changes (in particular after `setThemeMode m`), the provider runs
`AsyncStorage.setItem(THEME_MODE_KEY, themeMode)`. -/
def setThemeModePersist (m : ThemeMode) (st : Storage) : Storage :=
  setItem THEME_MODE_KEY m.toStorageString st

/-- The body of the load `useEffect`: given the stored value (or `none`),
apply it to the current mode only when it is exactly one of the three literal
mode strings, mirroring
`if (stored === "light" || stored === "dark" || stored === "system") setThemeMode(stored)`. -/
def applyStoredThemeMode (stored : Option String) (current : ThemeMode) : ThemeMode :=
  match stored with
  | some s =>
    if s = "light" then .light
    else if s = "dark" then .dark
    else if s = "system" then .system
    else current
  | none => current

/-- The `themeMode` state right after the mount effect of ThemeProvider has
run, as a function of the outcome of the `AsyncStorage.getItem` read: the
initial state is `"system"` (`useState<ThemeMode>("system")`); a thrown read
error is caught (and logged), leaving the mode at its initial value. -/
def mountThemeMode (read : Except String (Option String)) : ThemeMode :=
  match read with
  | .ok stored => applyStoredThemeMode stored .system
  | .error _ => .system

/-- The `isDark` memo of ThemeProvider:
`themeMode === "system" ? systemColorScheme === "dark" : themeMode === "dark"`. -/
def computeIsDark (themeMode : ThemeMode) (systemColorScheme : ColorScheme) : Bool :=
  if themeMode = .system then systemColorScheme = .dark
  else themeMode = .dark

/-- The `theme` memo of ThemeProvider: `isDark ? blueDark : blueLight`. -/
def providedTheme (isDark : Bool) : ThemeObject :=
  if isDark then .blueDark else .blueLight

/-! ## Toast context (`context/ToastContext.tsx`) -/

/-- `interface ToastItem`: unique id plus the props forwarded to `Toast`.
The props type is abstract (the Toast component's prop bag is opaque here). -/
structure ToastItem (P : Type) where
  id : Nat
  props : P
deriving DecidableEq, Repr

/-- The `duration` field of `ShowToastParams`: `number | "infinite"`. -/
inductive ToastDuration
  | finite (ms : Nat)
  | infinite
deriving DecidableEq, Repr

/-- The state of a mounted ToastProvider together with the timer environment:
`currentToast` and `nextId`/`timeoutRef` are the `useState`/`useRef` cells of
the provider; `pendingTimers` is the set (as a list) of timeout ids scheduled
via `setTimeout` and neither fired nor cancelled yet; `nextTimerId` supplies
fresh timeout ids. -/
structure ToastState (P : Type) where
  currentToast : Option (ToastItem P)
  nextId : Nat
  timeoutRef : Option Nat
  pendingTimers : List Nat
  nextTimerId : Nat
deriving DecidableEq, Repr

/-- The state of a freshly mounted ToastProvider: no toast, no timer. -/
def toastInit (P : Type) : ToastState P :=
  { currentToast := none, nextId := 0, timeoutRef := none,
    pendingTimers := [], nextTimerId := 0 }

/-- The guard-and-clear prologue shared by `showToast` and `hideToast`:
`if (timeoutRef.current) { clearTimeout(timeoutRef.current); timeoutRef.current = null; }`.
`clearTimeout` removes the timeout from the environment's pending set. -/
def clearPendingTimeout {P : Type} (s : ToastState P) : ToastState P :=
  match s.timeoutRef with
  | some t => { s with pendingTimers := s.pendingTimers.erase t, timeoutRef := none }
  | none => s

/-- `showToast({ duration = 3000, ...props })`: clear any pending timeout,
display a new toast under a fresh id, and start an auto-dismiss timeout
unless `duration` is `"infinite"` or falsy (`0`), mirroring
`if (duration !== "infinite" && duration) timeoutRef.current = setTimeout(...)`.
The omitted-argument default is 3000. -/
def showToast {P : Type} (props : P) (s : ToastState P)
    (duration : ToastDuration := .finite 3000) : ToastState P :=
  let s1 := clearPendingTimeout s
  let id := s1.nextId
  let s2 := { s1 with nextId := id + 1, currentToast := some { id := id, props := props } }
  match duration with
  | .infinite => s2
  | .finite ms =>
    if ms ≠ 0 then
      { s2 with timeoutRef := some s2.nextTimerId,
                pendingTimers := s2.nextTimerId :: s2.pendingTimers,
                nextTimerId := s2.nextTimerId + 1 }
    else s2

/-- `hideToast()`: clear any pending timeout, then `setCurrentToast(null)`. -/
def hideToast {P : Type} (s : ToastState P) : ToastState P :=
  let s1 := clearPendingTimeout s
  { s1 with currentToast := none }

/-- Firing of a scheduled timeout `t`: the environment removes `t` from the
pending set and runs the timeout callback, which is `() => hideToast()`.
(Only timers in `pendingTimers` can fire; theorems state that condition
where it matters.) -/
def fireTimeout {P : Type} (t : Nat) (s : ToastState P) : ToastState P :=
  hideToast { s with pendingTimers := s.pendingTimers.erase t }

/-- Timer-bookkeeping invariant of the toast provider: the environment's
pending auto-dismiss timeouts are exactly the one tracked by `timeoutRef`
(so there is at most one), and any tracked timeout id was issued before the
next fresh id. Holds for `toastInit`. -/
def toastTimerInv {P : Type} (s : ToastState P) : Prop :=
  match s.timeoutRef with
  | some t => s.pendingTimers = [t] ∧ t < s.nextTimerId
  | none => s.pendingTimers = []

instance {P : Type} (s : ToastState P) : Decidable (toastTimerInv s) := by
  unfold toastTimerInv
  match s.timeoutRef with
  | some _ => exact inferInstance
  | none => exact inferInstance

/-! ## The CLI (`cli.js`) -/

/-- The file system seen by the CLI: an association list from absolute paths
to file contents; the most recent write shadows older entries. Directories
are not modelled (`fs.ensureDir` only creates directories, never files). -/
abbrev FS := List (String × String)

/-- `fs.pathExists targetPath`. -/
def pathExists (p : String) (fs : FS) : Bool :=
  (fs.lookup p).isSome

/-- cli.js: `const availableComponents = [...]`. -/
def availableComponents : List String :=
  ["Alert", "Button", "RadioButton", "SafeAreaView", "SegmentedControl",
   "Switch", "Text", "TextInput", "Toast", "View"]

/-- cli.js: `const availableContexts = [...]`. -/
def availableContexts : List String :=
  ["AlertContext", "ThemeContext", "ToastContext"]

/-- cli.js: `const availableThemes = ["blueTheme"];`. -/
def availableThemes : List String :=
  ["blueTheme"]

/-- cli.js `isValidComponent`. -/
def isValidComponent (name : String) : Bool :=
  availableComponents.contains name
    || availableContexts.contains name
    || availableThemes.contains name

/-- `path.resolve(__dirname, "components/ui/NAME.tsx")`, with the package
directory abbreviated to the abstract root `PKG/`. -/
def componentSourcePath (name : String) : String :=
  "PKG/components/ui/" ++ name ++ ".tsx"

/-- `path.resolve(process.cwd(), "components", "ui")` joined with `NAME.tsx`,
with the consuming project abbreviated to the abstract root `CWD/`. -/
def componentTargetPath (name : String) : String :=
  "CWD/components/ui/" ++ name ++ ".tsx"

/-- `path.resolve(__dirname, "context/NAME.tsx")`. -/
def contextSourcePath (name : String) : String :=
  "PKG/context/" ++ name ++ ".tsx"

/-- `path.resolve(process.cwd(), "context")` joined with `NAME.tsx`. -/
def contextTargetPath (name : String) : String :=
  "CWD/context/" ++ name ++ ".tsx"

/-- `path.resolve(__dirname, "themes/NAME.ts")`. -/
def themeSourcePath (name : String) : String :=
  "PKG/themes/" ++ name ++ ".ts"

/-- `path.resolve(process.cwd(), "themes")` joined with `NAME.ts`. -/
def themeTargetPath (name : String) : String :=
  "CWD/themes/" ++ name ++ ".ts"

/-- One console message of the CLI; each constructor corresponds to one
`console.log` / `console.error` template of cli.js (the literal emoji and
wording are elided, the parameters are kept). -/
inductive CliOut
  | created (targetPath : String)
  | alreadyExists (name : String)
  | autoAdded (contextName : String)
  | contextNotAvailable (contextName : String)
  | missingComponentName
  | componentNotAvailable (name : String)
  | availableComponentsHeader
  | listedItem (name : String)
  | availableThemesHeader
  | addedAll
  | successfullyAdded (name : String)
  | requiredDeps (name : String) (deps : List String)
  | helpText
  | unknownCommand (command : String)
deriving DecidableEq, Repr

/-- Whether the message goes to `console.error` (rather than `console.log`)
in cli.js. -/
def CliOut.isError : CliOut → Bool
  | .contextNotAvailable _ => true
  | .missingComponentName => true
  | .componentNotAvailable _ => true
  | .unknownCommand _ => true
  | _ => false

/-- cli.js `copyFile`: `ensureDir` (directory-only, not modelled on files),
read the source file, write its content at the target. The source file
contents of the installed package are supplied by `src`; in the pure model
the read and write cannot throw, so the `catch` branch (which would log
`❌ Failed to copy` and return false) is unreachable. -/
def copyFile (src : String → String) (sourcePath targetPath : String) (fs : FS) :
    FS × List CliOut :=
  ((targetPath, src sourcePath) :: fs, [.created targetPath])

/-- cli.js `addRelatedContext`. -/
def addRelatedContext (src : String → String) (contextName : String) (fs : FS) :
    FS × List CliOut :=
  if ¬ availableContexts.contains contextName then
    (fs, [.contextNotAvailable contextName])
  else if pathExists (contextTargetPath contextName) fs then
    (fs, [.alreadyExists contextName])
  else
    let r := copyFile src (contextSourcePath contextName) (contextTargetPath contextName) fs
    (r.1, r.2 ++ [.autoAdded contextName])

/-- The success messages printed at the end of `addComponent` when
`added` is true: `✅ Successfully added NAME` plus the relevant required
dependencies for `Toast` and `SafeAreaView`. -/
def successMessages (name : String) : List CliOut :=
  [.successfullyAdded name] ++
    (if name = "Toast" then
      [.requiredDeps name
        ["react-native-gesture-handler", "react-native-safe-area-context",
         "react-native-reanimated"]]
    else if name = "SafeAreaView" then
      [.requiredDeps name ["react-native-safe-area-context"]]
    else [])

/-- The body of cli.js `addComponent` for a single concrete (non-`"all"`)
name that passed the `isValidComponent` check: dispatch on component /
context / theme, skip with an info message when the target already exists,
otherwise copy the file (plus the automatically added related context for
`Toast`, `Alert`, and themes) and print the success messages. -/
def addOne (src : String → String) (name : String) (fs : FS) : FS × List CliOut :=
  if availableComponents.contains name then
    if pathExists (componentTargetPath name) fs then
      (fs, [.alreadyExists name])
    else
      let r1 := copyFile src (componentSourcePath name) (componentTargetPath name) fs
      let r2 :=
        if name = "Toast" then addRelatedContext src "ToastContext" r1.1
        else if name = "Alert" then addRelatedContext src "AlertContext" r1.1
        else (r1.1, [])
      (r2.1, r1.2 ++ r2.2 ++ successMessages name)
  else if availableContexts.contains name then
    if pathExists (contextTargetPath name) fs then
      (fs, [.alreadyExists name])
    else
      let r1 := copyFile src (contextSourcePath name) (contextTargetPath name) fs
      (r1.1, r1.2 ++ successMessages name)
  else if availableThemes.contains name then
    if pathExists (themeTargetPath name) fs then
      (fs, [.alreadyExists name])
    else
      let r1 := copyFile src (themeSourcePath name) (themeTargetPath name) fs
      let r2 := addRelatedContext src "ThemeContext" r1.1
      (r2.1, r1.2 ++ r2.2 ++ successMessages name)
  else
    (fs, [])

/-- The target path `addComponent` checks for a valid name, following the
same component / context / theme dispatch as cli.js. -/
def targetPathOf (name : String) : String :=
  if availableComponents.contains name then componentTargetPath name
  else if availableContexts.contains name then contextTargetPath name
  else themeTargetPath name

/-- The source path inside the installed package that `addComponent` copies
from for a valid name, following the same dispatch as cli.js. -/
def sourcePathOf (name : String) : String :=
  if availableComponents.contains name then componentSourcePath name
  else if availableContexts.contains name then contextSourcePath name
  else themeSourcePath name

/-- The output of cli.js after the `not available` error: the listing of
available components and themes (`listComponents` prints the same listing,
with only a leading newline before the themes header differing). -/
def componentListing : List CliOut :=
  .availableComponentsHeader :: (availableComponents.map .listedItem)
    ++ .availableThemesHeader :: (availableThemes.map .listedItem)

/-- cli.js `addComponent(componentName)`: missing-name error, the `"all"`
loop over components and themes (each iteration recursively calls
`addComponent item`, which always takes the single-name path since `"all"`
is not an available item, modelled here by `addOne`), the unknown-name
error with the listing, or the single-name path. -/
def addNamed (src : String → String) (name : String) (fs : FS) : FS × List CliOut :=
  if name = "all" then
    let r := (availableComponents ++ availableThemes).foldl
      (fun acc item =>
        let r := addOne src item acc.1
        (r.1, acc.2 ++ r.2))
      (fs, [])
    (r.1, r.2 ++ [.addedAll])
  else if ¬ isValidComponent name then
    (fs, .componentNotAvailable name :: componentListing)
  else
    addOne src name fs

/-- The entry dispatch of cli.js `addComponent(componentName)`: the
missing-name error, then the named path (`addNamed`). -/
def addComponent (src : String → String) (componentName : Option String) (fs : FS) :
    FS × List CliOut :=
  match componentName with
  | none => (fs, [.missingComponentName, .helpText])
  | some name => addNamed src name fs

/-- cli.js `listComponents()`. -/
def listComponents : List CliOut :=
  componentListing

/-- The command string interpolated into `❌ Unknown command: ${command}`;
with no argument, `command` is `undefined`. -/
def commandDisplay : Option String → String
  | some c => c
  | none => "undefined"

/-- cli.js `main()`: dispatch on the command argument (`process.argv[2]`,
`none` when absent; the component name is `process.argv[3]`). The pure file
system cannot throw, so the outer `catch` (which would `process.exit(1)`) is
unreachable. -/
def cliMain (src : String → String) (command componentName : Option String) (fs : FS) :
    FS × List CliOut :=
  if command = some "add" then addComponent src componentName fs
  else if command = some "list" then (fs, listComponents)
  else if command = some "help" then (fs, [.helpText])
  else (fs, .unknownCommand (commandDisplay command) :: [.helpText])

/-- Whether a console message is one of the two failure messages the spec
names: the already-exists info message or the unknown-component error. -/
def specifiedFailureOutput : CliOut → Bool
  | .alreadyExists _ => true
  | .componentNotAvailable _ => true
  | _ => false

/-- A file-system content map with empty package sources, used for concrete
evaluations. -/
def srcNull : String → String := fun _ => ""

/-! ## Helper lemmas -/

@[simp]
theorem clearPendingTimeout_currentToast {P : Type} (s : ToastState P) :
    (clearPendingTimeout s).currentToast = s.currentToast := by
  unfold clearPendingTimeout
  cases s.timeoutRef <;> rfl

@[simp]
theorem clearPendingTimeout_nextId {P : Type} (s : ToastState P) :
    (clearPendingTimeout s).nextId = s.nextId := by
  unfold clearPendingTimeout
  cases s.timeoutRef <;> rfl

@[simp]
theorem clearPendingTimeout_nextTimerId {P : Type} (s : ToastState P) :
    (clearPendingTimeout s).nextTimerId = s.nextTimerId := by
  unfold clearPendingTimeout
  cases s.timeoutRef <;> rfl

@[simp]
theorem clearPendingTimeout_timeoutRef {P : Type} (s : ToastState P) :
    (clearPendingTimeout s).timeoutRef = none := by
  unfold clearPendingTimeout
  cases h : s.timeoutRef <;> simp [h]

theorem clearPendingTimeout_pendingTimers_of_inv {P : Type} (s : ToastState P)
    (hinv : toastTimerInv s) : (clearPendingTimeout s).pendingTimers = [] := by
  unfold toastTimerInv at hinv
  unfold clearPendingTimeout
  cases h : s.timeoutRef with
  | none => rw [h] at hinv; exact hinv
  | some t =>
    rw [h] at hinv
    simp [hinv.1]

/-! ## Theme theorems -/

/-- C4: theme-mode persistence round-trips. For every mode `m` in
light/dark/system, the save effect of `setThemeMode m` stores the literal
mode string under the key `"themeMode"`, and a subsequent ThemeProvider
mount that reads that stored value restores `themeMode` to `m`. -/
theorem theme_mode_round_trip (m : ThemeMode) (st : Storage) :
    getItem THEME_MODE_KEY (setThemeModePersist m st) = some m.toStorageString ∧
    mountThemeMode (.ok (getItem THEME_MODE_KEY (setThemeModePersist m st))) = m := by
  cases m <;>
    simp [getItem, setItem, setThemeModePersist, mountThemeMode,
      applyStoredThemeMode, ThemeMode.toStorageString, THEME_MODE_KEY, List.lookup]

/-- C5: theme propagation. `isDark` is true exactly when `themeMode` is dark,
or `themeMode` is system and the system color scheme is dark; and the provided
theme is `blueDark` exactly when `isDark` is true, and `blueLight` otherwise. -/
theorem theme_propagation (tm : ThemeMode) (sc : ColorScheme) :
    (computeIsDark tm sc = true ↔ tm = .dark ∨ (tm = .system ∧ sc = .dark)) ∧
    (providedTheme (computeIsDark tm sc) = .blueDark ↔ computeIsDark tm sc = true) ∧
    (providedTheme (computeIsDark tm sc) = .blueLight ↔ computeIsDark tm sc = false) := by
  cases tm <;> cases sc <;> decide

/-- C10: on ThemeProvider mount, a stored theme-mode value is applied only if
it is exactly `"light"`, `"dark"`, or `"system"`; for every other stored
value (including an absent one) and on a storage read error, `themeMode`
remains at its default `"system"`. -/
theorem theme_mode_load_validation (read : Except String (Option String)) :
    (mountThemeMode read = .light ↔ read = .ok (some "light")) ∧
    (mountThemeMode read = .dark ↔ read = .ok (some "dark")) ∧
    (read ≠ .ok (some "light") → read ≠ .ok (some "dark") →
      mountThemeMode read = .system) := by
  cases read with
  | error e => simp [mountThemeMode]
  | ok stored =>
    cases stored with
    | none => simp [mountThemeMode, applyStoredThemeMode]
    | some s =>
      by_cases hl : s = "light"
      · subst hl; simp [mountThemeMode, applyStoredThemeMode]
      · by_cases hd : s = "dark"
        · subst hd; simp [mountThemeMode, applyStoredThemeMode]
        · by_cases hs : s = "system"
          · subst hs; simp [mountThemeMode, applyStoredThemeMode]
          · simp [mountThemeMode, applyStoredThemeMode, hl, hd, hs]

/-- Witness for C10 at the concrete invalid stored value `"blue"` and at a
read error: in both cases the mount leaves the default `"system"`. -/
theorem theme_mode_load_validation_witness :
    mountThemeMode (.ok (some "blue")) = .system ∧
    mountThemeMode (.error "storage unavailable") = .system :=
  ⟨(theme_mode_load_validation (.ok (some "blue"))).2.2 (by simp) (by simp),
   (theme_mode_load_validation (.error "storage unavailable")).2.2
     (by simp) (by simp)⟩

/-! ## Toast theorems -/

/-- C1 counterexample: with a toast currently displayed (id 0, props 10),
`showToast` with new props 20 does not queue the new toast behind the
currently displayed one — it replaces it. The final conjunct spells out the
entire resulting provider state: it holds only the new toast, so nothing in
the state retains the previously displayed toast for later display. -/
theorem toast_show_queues_counterexample :
    (showToast 10 (toastInit Nat) .infinite).currentToast = some ⟨0, 10⟩ ∧
    (showToast 20 (showToast 10 (toastInit Nat) .infinite) .infinite).currentToast
      = some ⟨1, 20⟩ ∧
    (showToast 20 (showToast 10 (toastInit Nat) .infinite) .infinite).currentToast
      ≠ (showToast 10 (toastInit Nat) .infinite).currentToast ∧
    showToast 20 (showToast 10 (toastInit Nat) .infinite) .infinite
      = (⟨some ⟨1, 20⟩, 2, none, [], 0⟩ : ToastState Nat) := by
  decide

/-- C1 (amended): for every state — in particular every state in which a
toast is currently displayed — a call to `showToast` replaces the currently
displayed toast with the newly shown one under a fresh id; the provider
holds at most one toast and has no queue. -/
theorem toast_show_replaces (P : Type) (d : ToastDuration) (p : P)
    (s : ToastState P) :
    (showToast p s d).currentToast = some ⟨s.nextId, p⟩ ∧
    (showToast p s d).nextId = s.nextId + 1 := by
  cases d with
  | infinite => simp [showToast]
  | finite ms =>
    by_cases h : ms = 0 <;> simp [showToast, h]

/-- C2: every call to `showToast` clears any pending auto-dismiss timer
before starting a new one (the previously tracked timer is not pending
afterwards), `hideToast` clears any pending timer before hiding, the
invariant `toastTimerInv` holds initially and is preserved by `showToast`,
`hideToast` and timer firing, and under it at most one auto-dismiss timer is
pending at any time. -/
theorem toast_timer_invariant (P : Type) (d : ToastDuration) (p : P) (t : Nat)
    (s : ToastState P) (hinv : toastTimerInv s) :
    toastTimerInv (toastInit P) ∧
    toastTimerInv (showToast p s d) ∧
    toastTimerInv (hideToast s) ∧
    toastTimerInv (fireTimeout t s) ∧
    (showToast p s d).pendingTimers.length ≤ 1 ∧
    s.pendingTimers.length ≤ 1 ∧
    (∀ t0, s.timeoutRef = some t0 → t0 ∉ (showToast p s d).pendingTimers) ∧
    (hideToast s).pendingTimers = [] ∧
    (hideToast s).timeoutRef = none := by
  have hclear : (clearPendingTimeout s).pendingTimers = [] :=
    clearPendingTimeout_pendingTimers_of_inv s hinv
  have hfresh : ∀ t0, s.timeoutRef = some t0 → t0 < s.nextTimerId := by
    intro t0 h0
    unfold toastTimerInv at hinv
    rw [h0] at hinv
    exact hinv.2
  have hlen : s.pendingTimers.length ≤ 1 := by
    unfold toastTimerInv at hinv
    cases h0 : s.timeoutRef with
    | none => rw [h0] at hinv; simp [hinv]
    | some t0 => rw [h0] at hinv; simp [hinv.1]
  have hshow : ∀ P0 (p0 : P0) (d0 : ToastDuration) (s0 : ToastState P0),
      toastTimerInv s0 →
      toastTimerInv (showToast p0 s0 d0) ∧
      (showToast p0 s0 d0).pendingTimers.length ≤ 1 ∧
      (∀ t0, s0.timeoutRef = some t0 → t0 ∉ (showToast p0 s0 d0).pendingTimers) := by
    intro P0 p0 d0 s0 hinv0
    have hclear0 : (clearPendingTimeout s0).pendingTimers = [] :=
      clearPendingTimeout_pendingTimers_of_inv s0 hinv0
    have hfresh0 : ∀ t0, s0.timeoutRef = some t0 → t0 < s0.nextTimerId := by
      intro t0 h0
      unfold toastTimerInv at hinv0
      rw [h0] at hinv0
      exact hinv0.2
    cases d0 with
    | infinite =>
      refine ⟨?_, ?_, ?_⟩
      · unfold toastTimerInv
        simp [showToast, hclear0]
      · simp [showToast, hclear0]
      · intro t0 h0
        simp [showToast, hclear0]
    | finite ms =>
      by_cases hms : ms = 0
      · refine ⟨?_, ?_, ?_⟩
        · unfold toastTimerInv
          simp [showToast, hms, hclear0]
        · simp [showToast, hms, hclear0]
        · intro t0 h0
          simp [showToast, hms, hclear0]
      · refine ⟨?_, ?_, ?_⟩
        · unfold toastTimerInv
          simp [showToast, hms, hclear0]
        · simp [showToast, hms, hclear0]
        · intro t0 h0
          simp [showToast, hms, hclear0]
          exact Nat.ne_of_lt (hfresh0 t0 h0)
  have hhide : ∀ P0 (s0 : ToastState P0), toastTimerInv s0 →
      toastTimerInv (hideToast s0) ∧ (hideToast s0).pendingTimers = [] ∧
      (hideToast s0).timeoutRef = none := by
    intro P0 s0 hinv0
    have hclear0 : (clearPendingTimeout s0).pendingTimers = [] :=
      clearPendingTimeout_pendingTimers_of_inv s0 hinv0
    refine ⟨?_, ?_, ?_⟩
    · unfold toastTimerInv
      simp [hideToast, hclear0]
    · simp [hideToast, hclear0]
    · simp [hideToast]
  have hfireInv : toastTimerInv (fireTimeout t s) := by
    unfold toastTimerInv at hinv ⊢
    unfold fireTimeout hideToast clearPendingTimeout
    cases h0 : s.timeoutRef with
    | none =>
      rw [h0] at hinv
      simp [h0, hinv]
    | some t0 =>
      rw [h0] at hinv
      by_cases ht : t = t0
      · subst ht
        simp [h0, hinv.1]
      · have ht' : (t0 == t) = false := by
          simp [Ne.symm ht]
        simp [h0, hinv.1, List.erase_cons, ht']
  refine ⟨by simp [toastTimerInv, toastInit], (hshow P p d s hinv).1,
    (hhide P s hinv).1, hfireInv,
    (hshow P p d s hinv).2.1, hlen, (hshow P p d s hinv).2.2,
    (hhide P s hinv).2.1, (hhide P s hinv).2.2⟩

/-- Witness for C2 at a concrete reachable state with a pending timer:
the invariant holds there and is preserved with the old timer cleared. -/
theorem toast_timer_invariant_witness :
    toastTimerInv (showToast 7 (toastInit Nat)) ∧
    toastTimerInv (showToast 8 (showToast 7 (toastInit Nat))) ∧
    (showToast 8 (showToast 7 (toastInit Nat))).pendingTimers.length ≤ 1 ∧
    (0 ∉ (showToast 8 (showToast 7 (toastInit Nat))).pendingTimers) := by
  have h := toast_timer_invariant Nat (.finite 3000) 8 0 (showToast 7 (toastInit Nat))
    (by decide)
  exact ⟨by decide, h.2.1, h.2.2.2.2.1, h.2.2.2.2.2.2.1 0 (by decide)⟩

/-- C7: timer-based dismissal. A `showToast` call with omitted duration uses
3000 ms. With a finite nonzero duration a timeout is started (tracked in
`timeoutRef` and pending in the environment) whose firing hides the current
toast, setting it to `none`. With duration `"infinite"` no timeout is
started, so the toast stays displayed until `hideToast` is called, which
hides it. -/
theorem toast_timed_dismissal (P : Type) (p : P) (s : ToastState P) (ms : Nat)
    (hinv : toastTimerInv s) (hms : ms ≠ 0) :
    showToast p s = showToast p s (.finite 3000) ∧
    (showToast p s (.finite ms)).timeoutRef = some s.nextTimerId ∧
    s.nextTimerId ∈ (showToast p s (.finite ms)).pendingTimers ∧
    (fireTimeout s.nextTimerId (showToast p s (.finite ms))).currentToast = none ∧
    (showToast p s .infinite).timeoutRef = none ∧
    (showToast p s .infinite).pendingTimers = [] ∧
    (showToast p s .infinite).currentToast = some ⟨s.nextId, p⟩ ∧
    (hideToast (showToast p s .infinite)).currentToast = none := by
  have hclear : (clearPendingTimeout s).pendingTimers = [] :=
    clearPendingTimeout_pendingTimers_of_inv s hinv
  refine ⟨rfl, ?_, ?_, ?_, ?_, ?_, ?_, ?_⟩
  · simp [showToast, hms]
  · simp [showToast, hms]
  · simp [fireTimeout, hideToast]
  · simp [showToast]
  · simp [showToast, hclear]
  · simp [showToast]
  · simp [hideToast]

/-- Witness for C7: from the initial state, a toast shown with duration
500 ms has a pending timeout whose firing hides it, and a toast shown with
duration `"infinite"` has no pending timeout. -/
theorem toast_timed_dismissal_witness :
    (showToast 3 (toastInit Nat) (.finite 500)).timeoutRef = some 0 ∧
    (fireTimeout 0 (showToast 3 (toastInit Nat) (.finite 500))).currentToast
      = none ∧
    (showToast 3 (toastInit Nat) .infinite).pendingTimers = [] := by
  have h := toast_timed_dismissal Nat 3 (toastInit Nat) 500 (by decide) (by decide)
  exact ⟨h.2.1, h.2.2.2.1, h.2.2.2.2.2.1⟩

/-- C9: a `showToast` call with duration `0` starts no auto-dismiss timeout
(`0` is falsy, like `"infinite"`): afterwards no timeout is tracked and none
is pending, so no timer firing can occur and the toast stays displayed until
`hideToast` hides it. -/
theorem toast_zero_duration_no_timer (P : Type) (p : P) (s : ToastState P)
    (hinv : toastTimerInv s) :
    (showToast p s (.finite 0)).timeoutRef = none ∧
    (showToast p s (.finite 0)).pendingTimers = [] ∧
    (showToast p s (.finite 0)).currentToast = some ⟨s.nextId, p⟩ ∧
    (∀ t, t ∉ (showToast p s (.finite 0)).pendingTimers) ∧
    (hideToast (showToast p s (.finite 0))).currentToast = none := by
  have hclear : (clearPendingTimeout s).pendingTimers = [] :=
    clearPendingTimeout_pendingTimers_of_inv s hinv
  refine ⟨?_, ?_, ?_, ?_, ?_⟩
  · simp [showToast]
  · simp [showToast, hclear]
  · simp [showToast]
  · intro t
    simp [showToast, hclear]
  · simp [hideToast]

/-- Witness for C9 at the initial state: duration `0` leaves no timeout
tracked or pending, and the toast stays until `hideToast`. -/
theorem toast_zero_duration_no_timer_witness :
    (showToast 4 (toastInit Nat) (.finite 0)).timeoutRef = none ∧
    (showToast 4 (toastInit Nat) (.finite 0)).pendingTimers = [] ∧
    (hideToast (showToast 4 (toastInit Nat) (.finite 0))).currentToast = none := by
  have h := toast_zero_duration_no_timer Nat 4 (toastInit Nat) (by decide)
  exact ⟨h.1, h.2.1, h.2.2.2.2⟩

/-! ## CLI helper lemmas -/

theorem addOne_exists (src : String → String) (n : String) (fs : FS)
    (hval : isValidComponent n = true)
    (hex : pathExists (targetPathOf n) fs = true) :
    addOne src n fs = (fs, [.alreadyExists n]) := by
  by_cases hc : availableComponents.contains n = true
  · rw [targetPathOf, if_pos hc] at hex
    unfold addOne
    rw [if_pos hc, if_pos hex]
  · by_cases hx : availableContexts.contains n = true
    · rw [targetPathOf, if_neg hc, if_pos hx] at hex
      unfold addOne
      rw [if_neg hc, if_pos hx, if_pos hex]
    · have hth : availableThemes.contains n = true := by
        by_contra hth
        unfold isValidComponent at hval
        simp only [Bool.or_eq_true] at hval
        rcases hval with (h | h) | h
        · exact hc h
        · exact hx h
        · exact hth h
      rw [targetPathOf, if_neg hc, if_neg hx] at hex
      unfold addOne
      rw [if_neg hc, if_neg hx, if_pos hth, if_pos hex]

theorem cliMain_add_exists (src : String → String) (n : String) (fs : FS)
    (hval : isValidComponent n = true)
    (hex : pathExists (targetPathOf n) fs = true) :
    cliMain src (some "add") (some n) fs = (fs, [.alreadyExists n]) := by
  have hall : n ≠ "all" := by
    intro h
    subst h
    simp [isValidComponent, availableComponents, availableContexts,
      availableThemes] at hval
  unfold cliMain
  rw [if_pos rfl]
  have hred : addComponent src (some n) fs = addNamed src n fs := rfl
  rw [hred]
  unfold addNamed
  rw [if_neg hall, if_neg (not_not_intro hval)]
  exact addOne_exists src n fs hval hex

theorem addOne_fresh_lookup (src : String → String) (n : String) (fs : FS)
    (hval : isValidComponent n = true)
    (hfr : pathExists (targetPathOf n) fs = false) :
    List.lookup (targetPathOf n) (addOne src n fs).1 = some (src (sourcePathOf n)) := by
  by_cases hc : availableComponents.contains n = true
  · rw [targetPathOf, if_pos hc] at hfr ⊢
    rw [sourcePathOf, if_pos hc]
    unfold addOne
    rw [if_pos hc, if_neg (by simp [hfr])]
    by_cases hT : n = "Toast"
    · subst hT
      simp only [copyFile]
      rw [if_pos trivial]
      unfold addRelatedContext
      rw [if_neg (not_not_intro (by decide))]
      by_cases hE : pathExists (contextTargetPath "ToastContext")
          ((componentTargetPath "Toast", src (componentSourcePath "Toast")) :: fs) = true
      · rw [if_pos hE]
        simp [List.lookup]
      · rw [if_neg hE]
        simp only [copyFile]
        simp +decide [List.lookup, contextTargetPath, componentTargetPath]
    · by_cases hA : n = "Alert"
      · subst hA
        simp only [copyFile]
        rw [if_pos trivial]
        unfold addRelatedContext
        rw [if_neg (not_not_intro (by decide))]
        by_cases hE : pathExists (contextTargetPath "AlertContext")
            ((componentTargetPath "Alert", src (componentSourcePath "Alert")) :: fs) = true
        · rw [if_pos hE]
          simp [List.lookup]
        · rw [if_neg hE]
          simp only [copyFile]
          simp +decide [List.lookup, contextTargetPath, componentTargetPath]
      · simp only [copyFile]
        rw [if_neg hT, if_neg hA]
        simp [List.lookup]
  · by_cases hx : availableContexts.contains n = true
    · rw [targetPathOf, if_neg hc, if_pos hx] at hfr ⊢
      rw [sourcePathOf, if_neg hc, if_pos hx]
      unfold addOne
      rw [if_neg hc, if_pos hx, if_neg (by simp [hfr])]
      simp only [copyFile]
      simp [List.lookup]
    · have hth : availableThemes.contains n = true := by
        by_contra hth
        unfold isValidComponent at hval
        simp only [Bool.or_eq_true] at hval
        rcases hval with (h | h) | h
        · exact hc h
        · exact hx h
        · exact hth h
      have hn : n = "blueTheme" := by
        simpa [availableThemes] using hth
      subst hn
      rw [targetPathOf, if_neg hc, if_neg hx] at hfr ⊢
      rw [sourcePathOf, if_neg hc, if_neg hx]
      unfold addOne
      rw [if_neg hc, if_neg hx, if_pos hth, if_neg (by simp [hfr])]
      simp only [copyFile]
      unfold addRelatedContext
      rw [if_neg (not_not_intro (by decide))]
      by_cases hE : pathExists (contextTargetPath "ThemeContext")
          ((themeTargetPath "blueTheme", src (themeSourcePath "blueTheme")) :: fs) = true
      · rw [if_pos hE]
        simp [List.lookup]
      · rw [if_neg hE]
        simp only [copyFile]
        simp +decide [List.lookup, contextTargetPath, themeTargetPath]

theorem cliMain_add_fresh_lookup (src : String → String) (n : String) (fs : FS)
    (hval : isValidComponent n = true)
    (hfr : pathExists (targetPathOf n) fs = false) :
    List.lookup (targetPathOf n) (cliMain src (some "add") (some n) fs).1
      = some (src (sourcePathOf n)) := by
  have hall : n ≠ "all" := by
    intro h
    subst h
    simp [isValidComponent, availableComponents, availableContexts,
      availableThemes] at hval
  unfold cliMain
  rw [if_pos rfl]
  have hred : addComponent src (some n) fs = addNamed src n fs := rfl
  rw [hred]
  unfold addNamed
  rw [if_neg hall, if_neg (not_not_intro hval)]
  exact addOne_fresh_lookup src n fs hval hfr

/-! ## CLI theorems -/

/-- C3 counterexample: the CLI has failure modes beyond "target file already
exists" and "unknown component name": `add` with no component name prints the
missing-component-name error, and an unrecognized command prints the
unknown-command error; both are `console.error` messages and neither is one
of the two failure messages the claim enumerates. -/
theorem cli_failure_modes_counterexample :
    CliOut.missingComponentName ∈ (cliMain srcNull (some "add") none []).2 ∧
    CliOut.missingComponentName.isError = true ∧
    specifiedFailureOutput CliOut.missingComponentName = false ∧
    CliOut.unknownCommand "wat" ∈ (cliMain srcNull (some "wat") none []).2 ∧
    (CliOut.unknownCommand "wat").isError = true ∧
    specifiedFailureOutput (CliOut.unknownCommand "wat") = false := by
  decide

/-- C3 (amended): the CLI's failure modes are four, not two — a missing
component name, an unknown component name, an already-existing target file,
and an unknown command. In every one of these cases the CLI handles the
failure by printing a message and leaves the file system unchanged (and, the
model being total, it neither throws nor exits nonzero). -/
theorem cli_failure_modes (src : String → String) (fs : FS) :
    (cliMain src (some "add") none fs = (fs, [.missingComponentName, .helpText])) ∧
    (∀ n, n ≠ "all" → isValidComponent n = false →
      cliMain src (some "add") (some n) fs
        = (fs, .componentNotAvailable n :: componentListing)) ∧
    (∀ n, isValidComponent n = true → pathExists (targetPathOf n) fs = true →
      cliMain src (some "add") (some n) fs = (fs, [.alreadyExists n])) ∧
    (∀ c, c ≠ "add" → c ≠ "list" → c ≠ "help" →
      cliMain src (some c) none fs = (fs, [.unknownCommand c, .helpText])) ∧
    (cliMain src none none fs = (fs, [.unknownCommand "undefined", .helpText])) := by
  refine ⟨rfl, ?_, ?_, ?_, rfl⟩
  · intro n hall hval
    unfold cliMain
    rw [if_pos rfl]
    have hred : addComponent src (some n) fs = addNamed src n fs := rfl
    rw [hred]
    unfold addNamed
    have hcond : ¬ isValidComponent n = true := by simp [hval]
    rw [if_neg hall, if_pos hcond]
  · intro n hval hex
    exact cliMain_add_exists src n fs hval hex
  · intro c h1 h2 h3
    have g1 : ¬ (some c = some "add") := by simp [h1]
    have g2 : ¬ (some c = some "list") := by simp [h2]
    have g3 : ¬ (some c = some "help") := by simp [h3]
    unfold cliMain
    rw [if_neg g1, if_neg g2, if_neg g3]
    rfl

/-- Witness for C3 (amended) at concrete inputs: an unknown component name,
an already-existing target, and an unknown command. -/
theorem cli_failure_modes_witness :
    cliMain srcNull (some "add") (some "Bogus") []
      = ([], .componentNotAvailable "Bogus" :: componentListing) ∧
    cliMain srcNull (some "add") (some "Button")
        [(componentTargetPath "Button", "existing")]
      = ([(componentTargetPath "Button", "existing")], [.alreadyExists "Button"]) ∧
    cliMain srcNull (some "wat") none [] = ([], [.unknownCommand "wat", .helpText]) :=
  ⟨(cli_failure_modes srcNull []).2.1 "Bogus" (by decide) (by decide),
   (cli_failure_modes srcNull [(componentTargetPath "Button", "existing")]).2.2.1
     "Button" (by decide) (by decide),
   (cli_failure_modes srcNull []).2.2.2.1 "wat" (by decide) (by decide) (by decide)⟩

/-- C6: the CLI dispatches on exactly the three subcommands `add`, `list`
and `help`: `list` prints the available components and themes, `help` prints
the usage text, every other command (including an absent one) prints the
unknown-command error followed by the help text and copies no file (the file
system is unchanged), and `add` of a valid, not-yet-present name copies the
named static file into the consuming project (the target path afterwards
holds the package's source file content). -/
theorem cli_dispatch (src : String → String) (nameArg : Option String) (fs : FS) :
    (cliMain src (some "list") nameArg fs = (fs, componentListing)) ∧
    (cliMain src (some "help") nameArg fs = (fs, [.helpText])) ∧
    (∀ c, c ≠ "add" → c ≠ "list" → c ≠ "help" →
      cliMain src (some c) nameArg fs = (fs, [.unknownCommand c, .helpText])) ∧
    (cliMain src none nameArg fs = (fs, [.unknownCommand "undefined", .helpText])) ∧
    (∀ n, isValidComponent n = true → pathExists (targetPathOf n) fs = false →
      List.lookup (targetPathOf n) (cliMain src (some "add") (some n) fs).1
        = some (src (sourcePathOf n))) := by
  refine ⟨rfl, rfl, ?_, rfl, ?_⟩
  · intro c h1 h2 h3
    have g1 : ¬ (some c = some "add") := by simp [h1]
    have g2 : ¬ (some c = some "list") := by simp [h2]
    have g3 : ¬ (some c = some "help") := by simp [h3]
    unfold cliMain
    rw [if_neg g1, if_neg g2, if_neg g3]
    rfl
  · intro n hval hfr
    exact cliMain_add_fresh_lookup src n fs hval hfr

/-- Witness for C6: an unrecognized command prints the unknown-command error
plus help and leaves the file system unchanged, and `add Toast` on an empty
project copies the Toast component file to its target path. -/
theorem cli_dispatch_witness :
    cliMain srcNull (some "wipe") none [] = ([], [.unknownCommand "wipe", .helpText]) ∧
    List.lookup (targetPathOf "Toast") (cliMain srcNull (some "add") (some "Toast") []).1
      = some (srcNull (sourcePathOf "Toast")) :=
  ⟨(cli_dispatch srcNull none []).2.2.1 "wipe" (by decide) (by decide) (by decide),
   (cli_dispatch srcNull none []).2.2.2.2 "Toast" (by decide) (by decide)⟩

/-- C8: for every `add` invocation naming a valid component, context or theme
whose target file already exists in the consuming project, the CLI prints the
already-exists message and nothing else, and the resulting file system is
exactly the input file system — no write to the target path (or any other
path) occurs, so the existing file's content is unchanged. -/
theorem cli_add_existing_unchanged (src : String → String) (n : String) (fs : FS)
    (hval : isValidComponent n = true)
    (hex : pathExists (targetPathOf n) fs = true) :
    cliMain src (some "add") (some n) fs = (fs, [.alreadyExists n]) :=
  cliMain_add_exists src n fs hval hex

/-- Witness for C8: `add blueTheme` when the theme file is already present
leaves the customized file intact and only prints the already-exists
message. -/
theorem cli_add_existing_unchanged_witness :
    cliMain srcNull (some "add") (some "blueTheme")
        [(themeTargetPath "blueTheme", "customized")]
      = ([(themeTargetPath "blueTheme", "customized")], [.alreadyExists "blueTheme"]) :=
  cli_add_existing_unchanged srcNull "blueTheme"
    [(themeTargetPath "blueTheme", "customized")] (by decide) (by decide)
